import Mathlib

/-
Verification of the `tf-guides` notebooks (keras_quickstart).

The repository's authored code lives in three notebooks:
  - `0_keras_cnn.ipynb`: a small convolutional classifier over MNIST;
  - `1_tf_data_tutorial.ipynb`: a tabular (heart.csv) training pipeline;
  - `4_save_and_load.ipynb`: checkpoint save/restore, plus a benchmarking
    walkthrough for a cloud-storage-backed `tf.data` input pipeline
    (label maps, one-hot encoding, TFRecord creation, and two variants of
    `build_dataset_test`).

This file gives a shallow embedding of those helpers.  Python dictionaries
are modelled as insertion-ordered association lists; `tf.data` datasets are
modelled as lists (finite) or `Nat`-indexed streams of optional elements
(after a `repeat`); framework primitives of TensorFlow (file reads, JPEG
decoding, proto serialization) are abstract function parameters, since only
their composition is authored in this repository.
-/

set_option autoImplicit false

namespace TFGuides

/-! ## A model of Python dictionaries

An insertion-ordered association list: `update` replaces in place when the
key is present, else appends (CPython dict semantics); `lookup` returns the
first (hence only) binding of a key. -/

variable {α β : Type} [DecidableEq α]

/-- Python `d[k]` for a dict modelled as an association list: the first
binding of the key, if any. -/
def pyLookup : List (α × β) → α → Option β
  | [], _ => none
  | p :: rest, k => if p.1 = k then some p.2 else pyLookup rest k

/-- Python `list(d.keys())` for a dict. -/
def pyKeys (d : List (α × β)) : List α :=
  d.map Prod.fst

/-- Python `d[k] = v` for a dict: replace in place when present, else append. -/
def pyUpdate (d : List (α × β)) (k : α) (v : β) : List (α × β) :=
  if k ∈ pyKeys d then
    d.map (fun p => if p.1 = k then (k, v) else p)
  else
    d ++ [(k, v)]

/-- A Python dict built from a sequence of key/value pairs (a dict
comprehension, or a loop of updates starting from `{}`). -/
def pyDictOf (pairs : List (α × β)) : List (α × β) :=
  pairs.foldl (fun d p => pyUpdate d p.1 p.2) []

theorem pyUpdate_of_not_mem {d : List (α × β)} {k : α} (v : β)
    (h : k ∉ pyKeys d) : pyUpdate d k v = d ++ [(k, v)] := by
  simp [pyUpdate, h]

theorem pyLookup_map_update {d : List (α × β)} {k : α} (v : β) :
    pyLookup (d.map (fun p => if p.1 = k then (k, v) else p)) k =
      if k ∈ pyKeys d then some v else none := by
  induction d with
  | nil => simp [pyLookup, pyKeys]
  | cons q rest ih =>
    by_cases hq : q.1 = k
    · simp [pyLookup, pyKeys, hq]
    · have hq2 : ¬ (k = q.1) := fun hc => hq hc.symm
      by_cases hk : k ∈ List.map Prod.fst rest <;>
        simp [pyLookup, pyKeys, hq, hq2, ih, hk]

theorem pyLookup_map_update_ne {d : List (α × β)} {k k' : α} (v : β)
    (h : k' ≠ k) :
    pyLookup (d.map (fun p => if p.1 = k then (k, v) else p)) k' =
      pyLookup d k' := by
  have h1 : ¬ (k = k') := fun hc => h hc.symm
  induction d with
  | nil => rfl
  | cons q rest ih =>
    by_cases hq : q.1 = k
    · simpa [pyLookup, hq, h1] using ih
    · by_cases hq' : q.1 = k'
      · simp [pyLookup, hq, hq', h]
      · simpa [pyLookup, hq, hq'] using ih

theorem pyLookup_append_right {d e : List (α × β)} {k : α}
    (h : k ∉ pyKeys d) : pyLookup (d ++ e) k = pyLookup e k := by
  induction d with
  | nil => simp
  | cons q rest ih =>
    have hq : ¬ (q.1 = k) := fun hc => h (by simp [pyKeys, hc])
    have hr : k ∉ pyKeys rest := fun hc => h (by simp [pyKeys] at hc ⊢; exact Or.inr hc)
    simpa [pyLookup, hq] using ih hr

theorem pyLookup_append_single_ne (d : List (α × β)) {k k' : α} (v : β)
    (h : k' ≠ k) : pyLookup (d ++ [(k, v)]) k' = pyLookup d k' := by
  have h1 : ¬ (k = k') := fun hc => h hc.symm
  induction d with
  | nil => simp [pyLookup, h1]
  | cons q rest ih =>
    by_cases hq : q.1 = k'
    · simp [pyLookup, hq]
    · simpa [pyLookup, hq] using ih

/-- Looking up the just-written key returns the written value. -/
theorem pyLookup_update_self (d : List (α × β)) (k : α) (v : β) :
    pyLookup (pyUpdate d k v) k = some v := by
  by_cases hm : k ∈ pyKeys d
  · rw [pyUpdate, if_pos hm, pyLookup_map_update, if_pos hm]
  · rw [pyUpdate_of_not_mem v hm, pyLookup_append_right hm]
    simp [pyLookup]

/-- Writing one key leaves the other keys' bindings unchanged. -/
theorem pyLookup_update_ne (d : List (α × β)) (k : α) (v : β) {k' : α}
    (h : k' ≠ k) : pyLookup (pyUpdate d k v) k' = pyLookup d k' := by
  by_cases hm : k ∈ pyKeys d
  · rw [pyUpdate, if_pos hm, pyLookup_map_update_ne v h]
  · rw [pyUpdate_of_not_mem v hm, pyLookup_append_single_ne d v h]

/-- The keys after an update are the old keys plus the written key. -/
theorem mem_pyKeys_update (d : List (α × β)) (k : α) (v : β) (x : α) :
    x ∈ pyKeys (pyUpdate d k v) ↔ x ∈ pyKeys d ∨ x = k := by
  by_cases hm : k ∈ pyKeys d
  · rw [pyUpdate, if_pos hm]
    have hkeys : pyKeys (d.map (fun p => if p.1 = k then (k, v) else p)) =
        d.map (fun p => if p.1 = k then k else p.1) := by
      simp only [pyKeys, List.map_map]
      congr 1
      funext p
      by_cases hp : p.1 = k <;> simp [hp, Function.comp]
    rw [hkeys]
    constructor
    · intro hx
      obtain ⟨p, hp, hpx⟩ := List.mem_map.mp hx
      by_cases hpk : p.1 = k
      · right; rw [if_pos hpk] at hpx; exact hpx.symm
      · left; rw [if_neg hpk] at hpx
        exact hpx ▸ List.mem_map_of_mem Prod.fst hp
    · intro hx
      rcases hx with hx | hx
      · by_cases hxk : x = k
        · obtain ⟨p, hp, hpx⟩ := List.mem_map.mp hm
          exact List.mem_map.mpr ⟨p, hp, by simp [hpx, hxk]⟩
        · obtain ⟨p, hp, hpx⟩ := List.mem_map.mp hx
          refine List.mem_map.mpr ⟨p, hp, ?_⟩
          have hpk : ¬ (p.1 = k) := by rw [hpx]; exact hxk
          rw [if_neg hpk]; exact hpx
      · obtain ⟨p, hp, hpx⟩ := List.mem_map.mp hm
        exact List.mem_map.mpr ⟨p, hp, by simp [hpx, hx]⟩
  · rw [pyUpdate_of_not_mem v hm]
    simp [pyKeys]

/-- With pairwise-distinct keys, the dict built from a pair list holds
exactly those pairs, in order. -/
theorem pyDictOf_eq_self {pairs : List (α × β)}
    (h : (pyKeys pairs).Nodup) : pyDictOf pairs = pairs := by
  suffices hgen : ∀ (ps : List (α × β)) (d : List (α × β)),
      (pyKeys (d ++ ps)).Nodup →
      ps.foldl (fun acc p => pyUpdate acc p.1 p.2) d = d ++ ps by
    simpa using hgen pairs [] (by simpa using h)
  intro ps
  induction ps with
  | nil => intro d _; simp
  | cons p rest ih =>
    intro d hnd
    have hkeys : pyKeys (d ++ p :: rest) = pyKeys d ++ p.1 :: pyKeys rest := by
      simp [pyKeys]
    rw [hkeys] at hnd
    have hdisj := (List.nodup_append.mp hnd).2.2
    have hnotin : p.1 ∉ pyKeys d := fun hc => hdisj hc (by simp)
    have hstep : pyUpdate d p.1 p.2 = d ++ [p] := by
      rw [pyUpdate_of_not_mem p.2 hnotin]
    have hassoc : (d ++ [p]) ++ rest = d ++ p :: rest := by
      simp
    calc (p :: rest).foldl (fun acc q => pyUpdate acc q.1 q.2) d
        = rest.foldl (fun acc q => pyUpdate acc q.1 q.2) (d ++ [p]) := by
          simp [List.foldl_cons, hstep]
      _ = (d ++ [p]) ++ rest := by
          apply ih
          rw [hassoc, hkeys]
          exact hnd
      _ = d ++ p :: rest := hassoc

/-- A successful lookup comes from a pair of the list. -/
theorem mem_of_pyLookup_eq_some {d : List (α × β)} {k : α} {v : β}
    (h : pyLookup d k = some v) : (k, v) ∈ d := by
  induction d with
  | nil => cases h
  | cons q rest ih =>
    by_cases hq : q.1 = k
    · obtain ⟨a, b⟩ := q
      simp only [pyLookup, if_pos hq, Option.some.injEq] at h
      subst hq
      simp at h ⊢
      exact Or.inl h.symm
    · rw [pyLookup, if_neg hq] at h
      exact List.mem_cons_of_mem _ (ih h)

/-- With pairwise-distinct keys, every pair of the list is found by lookup. -/
theorem pyLookup_eq_some_of_mem {d : List (α × β)} {k : α} {v : β}
    (hnd : (pyKeys d).Nodup) (hm : (k, v) ∈ d) : pyLookup d k = some v := by
  induction d with
  | nil => cases hm
  | cons q rest ih =>
    have hnd2 : (q.1 :: pyKeys rest).Nodup := by simpa [pyKeys] using hnd
    have hq1 : q.1 ∉ pyKeys rest := (List.nodup_cons.mp hnd2).1
    have hnd' : (pyKeys rest).Nodup := (List.nodup_cons.mp hnd2).2
    by_cases hq : q.1 = k
    · have hv : q = (k, v) := by
        rcases List.mem_cons.mp hm with h | h
        · exact h.symm
        · exfalso
          apply hq1
          have : (k, v).1 ∈ pyKeys rest := List.mem_map_of_mem Prod.fst h
          simpa [hq] using this
      simp [pyLookup, hq, hv]
    · have hmem : (k, v) ∈ rest := by
        rcases List.mem_cons.mp hm with h | h
        · exact absurd (congrArg Prod.fst h.symm) hq
        · exact h
      simpa [pyLookup, hq] using ih hnd' hmem

/-! ## `get_label_map` (benchmarking notebook, `4_save_and_load.ipynb`)

```python
def get_label_map(path):
    folders_name = tf.io.gfile.glob(path)
    labels = []
    for folder in folders_name:
        labels.append(folder.split(sep='/')[-1])
    label_map = {labels[i]:i for i in range(len(labels))}
    inv_label_map = {i:labels[i] for i in range(len(labels))}
    return label_map, inv_label_map
```

`tf.io.gfile.glob` is a framework/filesystem call; the folder listing it
returns is the input of the embedding.  `folder.split(sep='/')[-1]` is the
last `/`-separated segment. -/

/-- Python `str.split(sep)` for a one-character separator, by recursion on the
character list: split at every occurrence of the separator, keeping empty
segments (CPython semantics, e.g. `"a//b".split('/') == ['a','','b']`).
The result is never the empty list. -/
def splitOnCharList (c : Char) : List Char → List (List Char)
  | [] => [[]]
  | x :: xs =>
    let r := splitOnCharList c xs
    if x = c then [] :: r
    else
      match r with
      | [] => [[x]]
      | seg :: rest => (x :: seg) :: rest

/-- Python `s.split(sep)` on a `String`. -/
def pySplit (sep : Char) (s : String) : List String :=
  (splitOnCharList sep s.toList).map (fun cs => String.mk cs)

/-- Python `s.split(sep='/')[-1]`: the last slash-separated segment of a string
(`str.split` never returns an empty list, so the Python `[-1]` never
fails; the `getLastD` default is unreachable). -/
def basename (s : String) : String :=
  (pySplit '/' s).getLastD ""

/-- The function `get_label_map`, taking the folder listing returned by the glob.
The two dict comprehensions pair `labels[i]` with `i` in index order. -/
def get_label_map (folders_name : List String) :
    List (String × Nat) × List (Nat × String) :=
  let labels := folders_name.map basename
  (pyDictOf (labels.enum.map (fun p => (p.2, p.1))), pyDictOf labels.enum)

theorem pyKeys_swap_enum (labels : List String) :
    pyKeys (labels.enum.map (fun p => (p.2, p.1))) = labels := by
  simp only [pyKeys, List.map_map]
  exact List.enum_map_snd labels

/-- C9: whenever the basenames of the listed folders are pairwise distinct,
the two dictionaries returned by `get_label_map` are mutually inverse
bijections between the `n` basenames and the indices `0..n-1`. -/
theorem get_label_map_inverse (folders_name : List String)
    (hnd : (folders_name.map basename).Nodup) :
    (∀ name ∈ folders_name.map basename,
        ∃ i, pyLookup (get_label_map folders_name).1 name = some i ∧
          pyLookup (get_label_map folders_name).2 i = some name) ∧
    (∀ i, i < (folders_name.map basename).length →
        ∃ name, pyLookup (get_label_map folders_name).2 i = some name ∧
          pyLookup (get_label_map folders_name).1 name = some i) := by
  have hnd1 : (pyKeys ((folders_name.map basename).enum.map
      (fun p => (p.2, p.1)))).Nodup := by
    rw [pyKeys_swap_enum]; exact hnd
  have hnd2 : (pyKeys ((folders_name.map basename).enum)).Nodup :=
    List.nodup_enum_map_fst _
  have hlm : (get_label_map folders_name).1 =
      (folders_name.map basename).enum.map (fun p => (p.2, p.1)) :=
    pyDictOf_eq_self hnd1
  have hinv : (get_label_map folders_name).2 =
      (folders_name.map basename).enum :=
    pyDictOf_eq_self hnd2
  have henum : ∀ (i : Nat) (hi : i < (folders_name.map basename).length),
      (i, (folders_name.map basename).get ⟨i, hi⟩) ∈
        (folders_name.map basename).enum := by
    intro i hi
    rw [List.mk_mem_enum_iff_getElem?]
    exact List.getElem?_eq_getElem hi
  constructor
  · intro name hname
    obtain ⟨⟨i, hi⟩, hget⟩ := List.mem_iff_get.mp hname
    refine ⟨i, ?_, ?_⟩
    · rw [hlm]
      apply pyLookup_eq_some_of_mem hnd1
      exact hget ▸ List.mem_map_of_mem (fun p => (p.2, p.1)) (henum i hi)
    · rw [hinv]
      apply pyLookup_eq_some_of_mem hnd2
      exact hget ▸ henum i hi
  · intro i hi
    refine ⟨(folders_name.map basename).get ⟨i, hi⟩, ?_, ?_⟩
    · rw [hinv]
      exact pyLookup_eq_some_of_mem hnd2 (henum i hi)
    · rw [hlm]
      apply pyLookup_eq_some_of_mem hnd1
      exact List.mem_map_of_mem (fun p => (p.2, p.1)) (henum i hi)

/-- Witness for C9 at a concrete folder listing. -/
theorem get_label_map_inverse_witness :
    ((["gs://bucket/a", "gs://bucket/b"].map basename).Nodup) ∧
    ((∀ name ∈ ["gs://bucket/a", "gs://bucket/b"].map basename,
        ∃ i, pyLookup (get_label_map ["gs://bucket/a", "gs://bucket/b"]).1 name = some i ∧
          pyLookup (get_label_map ["gs://bucket/a", "gs://bucket/b"]).2 i = some name) ∧
      (∀ i, i < (["gs://bucket/a", "gs://bucket/b"].map basename).length →
        ∃ name, pyLookup (get_label_map ["gs://bucket/a", "gs://bucket/b"]).2 i = some name ∧
          pyLookup (get_label_map ["gs://bucket/a", "gs://bucket/b"]).1 name = some i)) :=
  ⟨by decide, get_label_map_inverse _ (by decide)⟩

/-! ## `one_hot_encode` (benchmarking notebook, `4_save_and_load.ipynb`)

```python
def one_hot_encode(label_map, filepath):
    labels = dict()
    for i in range(len(filepath)):
        encoding = zeros(len(label_map), dtype='uint8')
        encoding[label_map[filepath[i].split(sep='/')[-2]]] = 1
        labels.update({filepath[i]:list(encoding)})
    return labels
```

Failure modes are modelled explicitly: a missing dict key raises
`KeyError`; the Python `[-2]` on a list shorter than 2, or a numpy index
out of range, raises `IndexError`. -/

/-- A Python exception raised by `one_hot_encode`. -/
inductive PyErr where
  | keyError
  | indexError
deriving DecidableEq

/-- Python `filepath[i].split(sep='/')[-2]`: the second-to-last slash-separated
segment; `none` models the `IndexError` when there are fewer than two
segments. -/
def parentFolder (s : String) : Option String :=
  let parts := pySplit '/' s
  if h : 2 ≤ parts.length then some (parts.get ⟨parts.length - 2, by omega⟩)
  else none

/-- numpy `encoding[j] = 1` on a length-`n` array: in-place write, raising
`IndexError` when the index is out of bounds. -/
def npSetOne (l : List Nat) (j : Nat) : Except PyErr (List Nat) :=
  if j < l.length then .ok (l.set j 1) else .error .indexError

/-- One iteration of the `one_hot_encode` loop body. -/
def oneHotStep (label_map : List (String × Nat)) (d : List (String × List Nat))
    (path : String) : Except PyErr (List (String × List Nat)) :=
  match parentFolder path with
  | none => .error .indexError
  | some par =>
    match pyLookup label_map par with
    | none => .error .keyError
    | some j =>
      match npSetOne (List.replicate label_map.length 0) j with
      | .error e => .error e
      | .ok enc => .ok (pyUpdate d path enc)

/-- The function `one_hot_encode`: fold the loop body over the file paths, starting from
the empty dict. -/
def one_hot_encode (label_map : List (String × Nat)) (filepath : List String) :
    Except PyErr (List (String × List Nat)) :=
  filepath.foldlM (oneHotStep label_map) []

/-- The value `one_hot_encode` stores for a path: the zero vector of length
`len(label_map)` with a 1 written at the parent folder's mapped index. -/
def encodeValue (label_map : List (String × Nat)) (path : String) :
    Option (List Nat) := do
  let par ← parentFolder path
  let j ← pyLookup label_map par
  pure ((List.replicate label_map.length 0).set j 1)

theorem oneHotStep_ok {label_map : List (String × Nat)} {path : String}
    {par : String} {j : Nat} (d : List (String × List Nat))
    (hpar : parentFolder path = some par)
    (hj : pyLookup label_map par = some j) (hjlt : j < label_map.length) :
    oneHotStep label_map d path =
      .ok (pyUpdate d path ((List.replicate label_map.length 0).set j 1)) := by
  simp [oneHotStep, hpar, hj, npSetOne, hjlt]

/-- The fold of the loop body, with an arbitrary accumulated dict:
it succeeds, its keys are the old keys plus the processed paths, every
processed path maps to its encoding, and other keys are untouched. -/
theorem oneHot_fold_ok (label_map : List (String × Nat))
    (hv : ∀ p ∈ label_map, p.2 < label_map.length) :
    ∀ (paths : List String) (d : List (String × List Nat)),
      (∀ path ∈ paths, ∃ par j, parentFolder path = some par ∧
        pyLookup label_map par = some j) →
      ∃ e, paths.foldlM (oneHotStep label_map) d = .ok e ∧
        (∀ x, x ∈ pyKeys e ↔ x ∈ pyKeys d ∨ x ∈ paths) ∧
        (∀ path ∈ paths, pyLookup e path = encodeValue label_map path) ∧
        (∀ q, q ∉ paths → pyLookup e q = pyLookup d q) := by
  intro paths
  induction paths with
  | nil =>
    intro d _
    exact ⟨d, rfl, by simp, by simp, fun q _ => rfl⟩
  | cons path rest ih =>
    intro d hall
    obtain ⟨par, j, hpar, hj⟩ := hall path (by simp)
    have hjlt : j < label_map.length := hv _ (mem_of_pyLookup_eq_some hj)
    have hstep := oneHotStep_ok d hpar hj hjlt
    have henc : encodeValue label_map path =
        some ((List.replicate label_map.length 0).set j 1) := by
      rw [encodeValue, hpar]
      simp [hj]
    obtain ⟨e, he, hkeys, hlook, hframe⟩ :=
      ih (pyUpdate d path ((List.replicate label_map.length 0).set j 1))
        (fun q hq => hall q (List.mem_cons_of_mem _ hq))
    refine ⟨e, ?_, ?_, ?_, ?_⟩
    · rw [List.foldlM_cons, hstep]
      exact he
    · intro x
      rw [hkeys x, mem_pyKeys_update]
      constructor
      · rintro ((hx | hx) | hx)
        · exact Or.inl hx
        · exact Or.inr (by simp [hx])
        · exact Or.inr (by simp [hx])
      · rintro (hx | hx)
        · exact Or.inl (Or.inl hx)
        · rcases List.mem_cons.mp hx with hx | hx
          · exact Or.inl (Or.inr hx)
          · exact Or.inr hx
    · intro q hq
      rcases List.mem_cons.mp hq with hq | hq
      · subst hq
        by_cases hmem : q ∈ rest
        · exact hlook q hmem
        · rw [hframe q hmem, pyLookup_update_self, henc]
      · exact hlook q hq
    · intro q hq
      have hq1 : q ≠ path := fun hc => hq (hc ▸ List.mem_cons_self path rest)
      have hq2 : q ∉ rest := fun hc => hq (List.mem_cons_of_mem _ hc)
      rw [hframe q hq2, pyLookup_update_ne _ _ _ hq1]

/-- The fold raises `KeyError` when every path has a parent segment but
some path's parent folder is not a key of the label map. -/
theorem oneHot_fold_keyError (label_map : List (String × Nat))
    (hv : ∀ p ∈ label_map, p.2 < label_map.length) :
    ∀ (paths : List String) (d : List (String × List Nat)),
      (∀ path ∈ paths, (parentFolder path).isSome) →
      (∃ path ∈ paths, ∀ par, parentFolder path = some par →
        pyLookup label_map par = none) →
      paths.foldlM (oneHotStep label_map) d = .error .keyError := by
  intro paths
  induction paths with
  | nil =>
    intro d _ hbad
    obtain ⟨path, hmem, _⟩ := hbad
    cases hmem
  | cons path rest ih =>
    intro d hpar hbad
    obtain ⟨par, hp⟩ := Option.isSome_iff_exists.mp (hpar path (by simp))
    cases hlk : pyLookup label_map par with
    | none =>
      have hstep : oneHotStep label_map d path = .error .keyError := by
        simp [oneHotStep, hp, hlk]
      rw [List.foldlM_cons, hstep]
      rfl
    | some j =>
      have hjlt : j < label_map.length := hv _ (mem_of_pyLookup_eq_some hlk)
      have hstep := oneHotStep_ok d hp hlk hjlt
      rw [List.foldlM_cons, hstep]
      obtain ⟨bad, hbmem, hbnone⟩ := hbad
      have hbrest : bad ∈ rest := by
        rcases List.mem_cons.mp hbmem with hb | hb
        · exfalso
          subst hb
          rw [hbnone par hp] at hlk
          cases hlk
        · exact hb
      exact ih _ (fun q hq => hpar q (List.mem_cons_of_mem _ hq))
        ⟨bad, hbrest, hbnone⟩

/-- C8: with a label map whose indices are below its size, `one_hot_encode`
on paths whose parent folders are all keys of the map returns a dict keyed
by exactly the input paths, each mapped to the length-`n` 0/1 vector whose
single 1 sits at the index the map assigns to the path's parent folder;
and when some path's parent folder is not a key, it raises `KeyError`. -/
theorem one_hot_encode_spec (label_map : List (String × Nat))
    (filepath : List String)
    (hv : ∀ p ∈ label_map, p.2 < label_map.length) :
    ((∀ path ∈ filepath, ∃ par j, parentFolder path = some par ∧
        pyLookup label_map par = some j) →
      ∃ d, one_hot_encode label_map filepath = .ok d ∧
        (∀ x, x ∈ pyKeys d ↔ x ∈ filepath) ∧
        (∀ path ∈ filepath, ∃ par j, parentFolder path = some par ∧
          pyLookup label_map par = some j ∧
          ∃ v, pyLookup d path = some v ∧ v.length = label_map.length ∧
            ∀ m, m < label_map.length →
              v.get? m = some (if m = j then 1 else 0))) ∧
    ((∀ path ∈ filepath, (parentFolder path).isSome) →
      (∃ path ∈ filepath, ∀ par, parentFolder path = some par →
        pyLookup label_map par = none) →
      one_hot_encode label_map filepath = .error PyErr.keyError) := by
  constructor
  · intro hall
    obtain ⟨d, hd, hkeys, hlook, _⟩ := oneHot_fold_ok label_map hv filepath [] hall
    refine ⟨d, hd, ?_, ?_⟩
    · intro x
      rw [hkeys x]
      simp [pyKeys]
    · intro path hpath
      obtain ⟨par, j, hpar, hj⟩ := hall path hpath
      refine ⟨par, j, hpar, hj, (List.replicate label_map.length 0).set j 1, ?_, ?_, ?_⟩
      · rw [hlook path hpath, encodeValue, hpar]
        simp [hj]
      · have hjlt : j < label_map.length := hv _ (mem_of_pyLookup_eq_some hj)
        simp
      · intro m hm
        have hjlt : j < label_map.length := hv _ (mem_of_pyLookup_eq_some hj)
        by_cases hmj : m = j
        · subst hmj
          rw [List.get?_eq_getElem?,
            List.getElem?_set_self (by simpa using hjlt), if_pos rfl]
        · rw [List.get?_eq_getElem?,
            List.getElem?_set_ne (fun hc => hmj hc.symm), if_neg hmj]
          simp [hm]
  · intro hpar hbad
    exact oneHot_fold_keyError label_map hv filepath [] hpar hbad

/-- Witness for C8 at a concrete label map and path list (both branches of
the specification, each with its hypotheses discharged). -/
theorem one_hot_encode_spec_witness :
    (∀ p ∈ [("a", 0), ("b", 1)], p.2 < ([("a", 0), ("b", 1)] : List (String × Nat)).length) ∧
    (∃ d, one_hot_encode [("a", 0), ("b", 1)] ["gs://x/a/1.jpg", "gs://x/b/2.jpg"] = .ok d ∧
      (∀ x, x ∈ pyKeys d ↔ x ∈ ["gs://x/a/1.jpg", "gs://x/b/2.jpg"]) ∧
      (∀ path ∈ ["gs://x/a/1.jpg", "gs://x/b/2.jpg"],
        ∃ par j, parentFolder path = some par ∧
          pyLookup [("a", 0), ("b", 1)] par = some j ∧
          ∃ v, pyLookup d path = some v ∧ v.length = 2 ∧
            ∀ m, m < 2 → v.get? m = some (if m = j then 1 else 0))) ∧
    one_hot_encode [("a", 0), ("b", 1)] ["gs://x/c/1.jpg"] = .error PyErr.keyError := by
  refine ⟨by decide, ?_, ?_⟩
  · apply (one_hot_encode_spec [("a", 0), ("b", 1)]
      ["gs://x/a/1.jpg", "gs://x/b/2.jpg"] (by decide)).1
    intro path hpath
    simp only [List.mem_cons, List.not_mem_nil, or_false] at hpath
    rcases hpath with rfl | rfl
    · exact ⟨"a", 0, by decide, by decide⟩
    · exact ⟨"b", 1, by decide, by decide⟩
  · apply (one_hot_encode_spec [("a", 0), ("b", 1)]
      ["gs://x/c/1.jpg"] (by decide)).2 (by decide)
    refine ⟨"gs://x/c/1.jpg", by decide, ?_⟩
    intro par hpar
    have hc : parentFolder "gs://x/c/1.jpg" = some "c" := by decide
    rw [hc] at hpar
    cases hpar
    decide

/-! ## Per-element preprocessing functions mapped over datasets

From `0_keras_cnn.ipynb`:
```python
def scale(image, label):
    image = tf.cast(image, tf.float32)
    image /= 255
    return image, label
```
From `4_save_and_load.ipynb`:
```python
def get_bytes_label(filepath, label):
    raw_bytes = tf.io.read_file(filepath)
    return raw_bytes, label

def process_image(raw_bytes, label):
    image = tf.io.decode_jpeg(raw_bytes, channels=3)
    image = tf.image.convert_image_dtype(image, dtype=tf.float32)
    image = tf.image.resize(image, (224,224))
    return image, label
```
The tensor operations (`tf.cast`, division by 255, `tf.io.read_file`,
`tf.io.decode_jpeg`, `tf.image.convert_image_dtype`, `tf.image.resize`)
belong to the framework and are abstract function parameters; only their
composition and the treatment of the label are authored here. -/

/-- The function `scale` from the CNN notebook: cast the image to float, divide by 255,
return the pair. -/
def scale {ImgU ImgF L : Type} (tfCastFloat : ImgU → ImgF)
    (divBy255 : ImgF → ImgF) (image : ImgU) (label : L) : ImgF × L :=
  let image1 := tfCastFloat image
  let image2 := divBy255 image1
  (image2, label)

/-- The function `get_bytes_label` from the benchmarking notebook: read the file bytes,
return them with the label. -/
def get_bytes_label {B L : Type} (tfReadFile : String → B)
    (filepath : String) (label : L) : B × L :=
  (tfReadFile filepath, label)

/-- The function `process_image` from the benchmarking notebook: decode the JPEG with 3
channels, convert to float dtype, resize to 224 x 224, return the pair. -/
def process_image {B I J L : Type} (tfDecodeJpeg3 : B → I)
    (tfConvertFloat : I → J) (tfResize224 : J → J)
    (raw_bytes : B) (label : L) : J × L :=
  let image1 := tfDecodeJpeg3 raw_bytes
  let image2 := tfConvertFloat image1
  let image3 := tfResize224 image2
  (image3, label)

/-- C10: each per-element preprocessing function mapped over a dataset
(`scale`, `get_bytes_label`, `process_image`) returns its label argument
unchanged: only the image component is transformed. -/
theorem preprocessing_preserves_label {ImgU ImgF B I J L : Type}
    (tfCastFloat : ImgU → ImgF) (divBy255 : ImgF → ImgF)
    (tfReadFile : String → B) (tfDecodeJpeg3 : B → I)
    (tfConvertFloat : I → J) (tfResize224 : J → J)
    (image : ImgU) (filepath : String) (raw_bytes : B) (label : L) :
    (scale tfCastFloat divBy255 image label).2 = label ∧
    (get_bytes_label tfReadFile filepath label).2 = label ∧
    (process_image tfDecodeJpeg3 tfConvertFloat tfResize224
      raw_bytes label).2 = label :=
  ⟨rfl, rfl, rfl⟩

/-! ## `build_dataset` and its cache stage (benchmarking notebook)

```python
def build_dataset(dataset, batch_size=BATCH_SIZE, cache=False):
    dataset = dataset.shuffle(NUM_TOTAL_IMAGES)
    dataset = dataset.map(get_bytes_label, num_parallel_calls=AUTOTUNE)
    dataset = dataset.map(process_image, num_parallel_calls=AUTOTUNE)
    dataset = dataset.repeat()
    dataset = dataset.batch(batch_size=batch_size)
    if cache:
        if isinstance(cache, str):
            dataset = dataset.cache(filename=cache)
        else:
            dataset = dataset.cache()
    dataset = dataset.prefetch(buffer_size=AUTOTUNE)
    return dataset
```

The pipeline is modelled as the list of framework operator stages it
stacks; the `cache` argument is a Python value tested for truthiness
(`False`, `True`, or a string, where the empty string is falsy). -/

/-- The `cache` argument of `build_dataset`: a bool or a string. -/
inductive CacheArg where
  | boolArg (b : Bool)
  | strArg (s : String)
deriving DecidableEq

/-- Python truthiness of the `cache` argument: `bool(False) = False`,
`bool(True) = True`, and a string is truthy iff it is non-empty. -/
def CacheArg.truthy : CacheArg → Bool
  | boolArg b => b
  | strArg s => !(s == "")

/-- One stage of the `tf.data` pipeline stacked by `build_dataset`. -/
inductive Stage where
  | shuffle (bufferSize : Nat)
  | mapGetBytesLabel
  | mapProcessImage
  | repeatStage
  | batch (batchSize : Nat)
  | cacheFile (filename : String)
  | cacheMemory
  | prefetch
deriving DecidableEq

/-- Does a pipeline stage use the framework's `Dataset.cache` operator? -/
def Stage.isCache : Stage → Bool
  | cacheFile _ => true
  | cacheMemory => true
  | _ => false

/-- The function `build_dataset` as the list of stages it stacks, in order. -/
def build_dataset (numTotalImages batchSize : Nat) (cache : CacheArg) :
    List Stage :=
  [Stage.shuffle numTotalImages, Stage.mapGetBytesLabel,
    Stage.mapProcessImage, Stage.repeatStage, Stage.batch batchSize]
  ++ (if cache.truthy then
        (match cache with
          | CacheArg.strArg s => [Stage.cacheFile s]
          | CacheArg.boolArg _ => [Stage.cacheMemory])
      else [])
  ++ [Stage.prefetch]

/-- C7: the only caching in `build_dataset` is the framework's
`Dataset.cache` operator, present iff the `cache` argument is truthy: the
cache stage is file-backed exactly when the argument is a (non-empty)
string and in-memory otherwise, and a falsy argument yields a pipeline
with no cache stage at all. -/
theorem build_dataset_cache_spec (numTotalImages batchSize : Nat)
    (cache : CacheArg) :
    ((build_dataset numTotalImages batchSize cache).any Stage.isCache
        = cache.truthy) ∧
    ((build_dataset numTotalImages batchSize cache).filter Stage.isCache
        = match cache with
          | CacheArg.strArg s => if s == "" then [] else [Stage.cacheFile s]
          | CacheArg.boolArg b => if b then [Stage.cacheMemory] else []) := by
  cases cache with
  | boolArg b =>
    cases b <;>
      simp [build_dataset, CacheArg.truthy, Stage.isCache, List.filter]
  | strArg s =>
    by_cases hs : s == "" <;>
      simp [build_dataset, CacheArg.truthy, Stage.isCache, List.filter, hs]

/-! ## The CNN quickstart model (`0_keras_cnn.ipynb`)

```python
model = tf.keras.Sequential([
    tf.keras.layers.Conv2D(32, 3, activation='relu', input_shape=(28, 28, 1)),
    tf.keras.layers.MaxPooling2D(),
    tf.keras.layers.Flatten(),
    tf.keras.layers.Dense(64, activation='relu'),
    tf.keras.layers.Dense(10)
])
```
Layers are modelled declaratively, and Keras shape inference (valid-padding
convolution, default 2 x 2 max pooling, flatten, dense) is embedded to
derive the output shape of the stack. -/

/-- A Keras activation as used in these notebooks. -/
inductive Activation where
  | relu
  | linear
deriving DecidableEq

/-- A Keras layer as used in the CNN quickstart's `Sequential` stack. -/
inductive Layer where
  | conv2D (filters kernelSize : Nat) (act : Activation)
      (inputShape : Option (Nat × Nat × Nat))
  | maxPooling2D
  | flatten
  | dense (units : Nat) (act : Activation)
deriving DecidableEq

/-- The `tf.keras.Sequential` layer stack of `0_keras_cnn.ipynb`. -/
def cnn_model : List Layer :=
  [Layer.conv2D 32 3 Activation.relu (some (28, 28, 1)),
    Layer.maxPooling2D,
    Layer.flatten,
    Layer.dense 64 Activation.relu,
    Layer.dense 10 Activation.linear]

/-- A tensor shape flowing through the stack: a 3-D feature map or a flat
vector. -/
inductive TShape where
  | dim3 (h w c : Nat)
  | dim1 (n : Nat)
deriving DecidableEq

/-- Keras shape inference for one layer: `Conv2D` with valid padding and
stride 1 (`out = in - kernel + 1`, channels = filters), `MaxPooling2D` with
the default 2 x 2 pool and stride (floor halving), `Flatten`, and `Dense`
(replacing the last dimension by the unit count). -/
def inferShape : TShape → Layer → Option TShape
  | TShape.dim3 h w _, Layer.conv2D f k _ _ =>
    if k ≤ h ∧ k ≤ w then some (TShape.dim3 (h - k + 1) (w - k + 1) f)
    else none
  | TShape.dim1 _, Layer.conv2D _ _ _ _ => none
  | TShape.dim3 h w c, Layer.maxPooling2D => some (TShape.dim3 (h / 2) (w / 2) c)
  | TShape.dim1 _, Layer.maxPooling2D => none
  | TShape.dim3 h w c, Layer.flatten => some (TShape.dim1 (h * w * c))
  | TShape.dim1 n, Layer.flatten => some (TShape.dim1 n)
  | TShape.dim1 _, Layer.dense u _ => some (TShape.dim1 u)
  | TShape.dim3 h w _, Layer.dense u _ => some (TShape.dim3 h w u)

/-- The output shape of a `Sequential` stack on a given input shape. -/
def sequentialOutputShape (input : TShape) (layers : List Layer) :
    Option TShape :=
  layers.foldlM inferShape input

/-- C5: the CNN quickstart model is a convolutional classifier: its first
layer is a 2-D convolution with 32 filters, kernel size 3 and relu
activation on inputs of shape 28 x 28 x 1, and the stack's final layer is
a 10-unit dense layer, so the model outputs exactly 10 class logits. -/
theorem cnn_model_conv_classifier :
    cnn_model.head? =
      some (Layer.conv2D 32 3 Activation.relu (some (28, 28, 1))) ∧
    cnn_model.getLast? = some (Layer.dense 10 Activation.linear) ∧
    sequentialOutputShape (TShape.dim3 28 28 1) cnn_model =
      some (TShape.dim1 10) := by
  refine ⟨rfl, rfl, ?_⟩
  decide

/-! ## The tabular-data pipeline (`1_tf_data_tutorial.ipynb`)

```python
df = pd.read_csv(csv_file)          # 14 columns, 'target' last
target = df.pop('target')
dataset = tf.data.Dataset.from_tensor_slices((df.values, target.values))
```
A dataframe is a column-name list plus rows of values; `pop` removes the
named column from every row and returns its values; `from_tensor_slices`
on a pair of equal-length lists pairs them up elementwise. -/

/-- A pandas dataframe: column names and rows of values. -/
structure DataFrame (V : Type) where
  cols : List String
  rows : List (List V)

/-- Pandas `df.pop(name)`: drop the named column from the frame and return its
values; `none` models the `KeyError` when the column is absent. -/
def dfPop {V : Type} [Inhabited V] (name : String) (df : DataFrame V) :
    Option (List V × DataFrame V) :=
  match df.cols.indexOf? name with
  | none => none
  | some k =>
    some (df.rows.map (fun r => r.getD k default),
      ⟨df.cols.eraseIdx k, df.rows.map (fun r => r.eraseIdx k)⟩)

/-- TensorFlow `tf.data.Dataset.from_tensor_slices((xs, ys))`: the dataset of pairs
of corresponding slices. -/
def from_tensor_slices {V : Type} (features : List (List V))
    (targets : List V) : List (List V × V) :=
  features.zip targets

/-- The dataset construction of the tabular notebook: pop `'target'`, then
pair the remaining rows with the popped values. -/
def heart_dataset {V : Type} [Inhabited V] (df : DataFrame V) :
    Option (List (List V × V)) :=
  match dfPop "target" df with
  | none => none
  | some (target, df2) => some (from_tensor_slices df2.rows target)

/-- The columns of `heart.csv` as loaded by the notebook (13 attributes,
then the `'target'` label). -/
def heartCols : List String :=
  ["age", "sex", "cp", "trestbps", "chol", "fbs", "restecg", "thalach",
    "exang", "oldpeak", "slope", "ca", "thal", "target"]

/-- C6: the `'target'` column is removed from the dataframe before the
dataset is constructed: on a well-formed heart dataframe, each element of
the dataset pairs the row's remaining 13 attribute values (the columns no
longer include `'target'`) with that row's popped target value. -/
theorem heart_dataset_spec {V : Type} [Inhabited V] (df : DataFrame V)
    (hcols : df.cols = heartCols)
    (hrows : ∀ r ∈ df.rows, r.length = 14) :
    ∃ target df2,
      dfPop "target" df = some (target, df2) ∧
      "target" ∉ df2.cols ∧
      df2.cols.length = 13 ∧
      heart_dataset df = some (df2.rows.zip target) ∧
      df2.rows.zip target =
        df.rows.map (fun r => (r.dropLast, r.getD 13 default)) ∧
      (∀ r ∈ df2.rows, r.length = 13) := by
  have hidx : df.cols.indexOf? "target" = some 13 := by
    rw [hcols]
    decide
  have hpop : dfPop "target" df =
      some (df.rows.map (fun r => r.getD 13 default),
        ⟨df.cols.eraseIdx 13, df.rows.map (fun r => r.eraseIdx 13)⟩) := by
    rw [dfPop, hidx]
  have herase : ∀ r ∈ df.rows, r.eraseIdx 13 = r.dropLast := by
    intro r hr
    exact (List.dropLast_eq_eraseIdx (by rw [hrows r hr])).symm
  have hrows2 : df.rows.map (fun r => r.eraseIdx 13) =
      df.rows.map List.dropLast :=
    List.map_congr_left herase
  refine ⟨df.rows.map (fun r => r.getD 13 default),
    ⟨df.cols.eraseIdx 13, df.rows.map (fun r => r.eraseIdx 13)⟩,
    hpop, ?_, ?_, ?_, ?_, ?_⟩
  · show "target" ∉ df.cols.eraseIdx 13
    rw [hcols]
    decide
  · show (df.cols.eraseIdx 13).length = 13
    rw [hcols]
    decide
  · rw [heart_dataset, hpop]
    rfl
  · show (df.rows.map (fun r => r.eraseIdx 13)).zip
        (df.rows.map (fun r => r.getD 13 default)) =
      df.rows.map (fun r => (r.dropLast, r.getD 13 default))
    rw [hrows2, List.zip_map']
  · intro r hr
    obtain ⟨r0, hr0, hre⟩ := List.mem_map.mp hr
    rw [← hre, herase r0 hr0, List.length_dropLast, hrows r0 hr0]

/-- Witness for C6 at a concrete one-row dataframe. -/
theorem heart_dataset_spec_witness :
    ((DataFrame.mk heartCols [[0, 1, 2, 3, 4, 5, 6, 7, 8, 9, 10, 11, 12, 13]] :
        DataFrame Nat).cols = heartCols) ∧
    (∀ r ∈ (DataFrame.mk heartCols
        [[0, 1, 2, 3, 4, 5, 6, 7, 8, 9, 10, 11, 12, 13]] :
        DataFrame Nat).rows, r.length = 14) ∧
    ∃ target df2,
      dfPop "target" (DataFrame.mk heartCols
        [[0, 1, 2, 3, 4, 5, 6, 7, 8, 9, 10, 11, 12, 13]] : DataFrame Nat) =
        some (target, df2) ∧
      "target" ∉ df2.cols ∧
      df2.cols.length = 13 ∧
      heart_dataset (DataFrame.mk heartCols
        [[0, 1, 2, 3, 4, 5, 6, 7, 8, 9, 10, 11, 12, 13]] : DataFrame Nat) =
        some (df2.rows.zip target) ∧
      df2.rows.zip target =
        (DataFrame.mk heartCols
          [[0, 1, 2, 3, 4, 5, 6, 7, 8, 9, 10, 11, 12, 13]] :
          DataFrame Nat).rows.map (fun r => (r.dropLast, r.getD 13 default)) ∧
      (∀ r ∈ df2.rows, r.length = 13) :=
  ⟨rfl, by decide, heart_dataset_spec _ rfl (by decide)⟩

/-! ## Checkpoint save and restore (`4_save_and_load.ipynb`)

```python
model.save_weights('./checkpoints/my_checkpoint')
model = create_model()
model.load_weights('./checkpoints/my_checkpoint')
loss, acc = model.evaluate(test_images, test_labels, verbose=2)
```
The checkpoint writer/reader is the framework's, not this repository's:
the notebook only calls `save_weights` / `load_weights` (directly and via
the `ModelCheckpoint` callback with `save_weights_only=True`). -/

/-- A Keras model for checkpointing purposes: an architecture and the
current weights. -/
structure KerasModel (A W : Type) where
  arch : A
  weights : W

/-- Modelled from the spec: the framework-native checkpoint machinery is
not part of this repository.  Per the spec's glossary, a checkpoint is a
"framework-native serialized snapshot of model weights", produced by
framework calls: `save_weights` records the model's weights under the
given path in the checkpoint store. -/
def save_weights {A W : Type} (m : KerasModel A W) (path : String)
    (store : List (String × W)) : List (String × W) :=
  pyUpdate store path m.weights

/-- Modelled from the spec: `load_weights` consumes the framework-native
snapshot at the given path, installing the stored weights into the model
(which must have the same architecture); `none` models the framework error
when no checkpoint exists at the path. -/
def load_weights {A W : Type} (store : List (String × W)) (path : String)
    (m : KerasModel A W) : Option (KerasModel A W) :=
  match pyLookup store path with
  | none => none
  | some w => some ⟨m.arch, w⟩

/-- C3: checkpoint save followed by restore is a round trip on the
weights: saving a model's weights and loading them into a freshly created
model of the same architecture yields a model whose weights equal the
saved ones, so any evaluation determined by architecture and weights
returns the same metrics as for the original model. -/
theorem checkpoint_roundtrip {A W D M : Type} (evaluate : A → W → D → M)
    (m fresh : KerasModel A W) (path : String) (store : List (String × W))
    (data : D) (harch : fresh.arch = m.arch) :
    ∃ restored,
      load_weights (save_weights m path store) path fresh = some restored ∧
      restored.weights = m.weights ∧
      restored.arch = m.arch ∧
      evaluate restored.arch restored.weights data =
        evaluate m.arch m.weights data := by
  refine ⟨⟨fresh.arch, m.weights⟩, ?_, rfl, harch, by rw [harch]⟩
  rw [load_weights, save_weights, pyLookup_update_self]

/-- Witness for C3 at a concrete model, fresh model, path and store. -/
theorem checkpoint_roundtrip_witness :
    ((KerasModel.mk 1 5 : KerasModel Nat Nat).arch =
      (KerasModel.mk 1 2 : KerasModel Nat Nat).arch) ∧
    ∃ restored,
      load_weights (save_weights (KerasModel.mk 1 2 : KerasModel Nat Nat)
        "ckpt" []) "ckpt" (KerasModel.mk 1 5) = some restored ∧
      restored.weights = (KerasModel.mk 1 2 : KerasModel Nat Nat).weights ∧
      restored.arch = (KerasModel.mk 1 2 : KerasModel Nat Nat).arch ∧
      (fun (a w d : Nat) => a + w + d) restored.arch restored.weights 7 =
        (fun (a w d : Nat) => a + w + d)
          (KerasModel.mk 1 2 : KerasModel Nat Nat).arch
          (KerasModel.mk 1 2 : KerasModel Nat Nat).weights 7 :=
  ⟨rfl, checkpoint_roundtrip (fun a w d => a + w + d)
    (KerasModel.mk 1 2) (KerasModel.mk 1 5) "ckpt" [] 7 rfl⟩

/-! ## TFRecord creation (`4_save_and_load.ipynb`)

```python
def tf_serialize_example(image, label):
    def _bytes_feature(value): ...  # tf.train.BytesList([value])
    def _int64_feature(value): ...  # tf.train.Int64List(value)
    def serialize_example(image, label):
        feature = {'image': _bytes_feature(image), 'label': _int64_feature(label)}
        example_proto = tf.train.Example(features=tf.train.Features(feature=feature))
        return example_proto.SerializeToString()
    return serialize_example(image, label)

def build_dataset_tfrecord(dataset):
    dataset = dataset.map(get_bytes_label_tfrecord, num_parallel_calls=AUTOTUNE)
    dataset = dataset.map(process_image_tfrecord, num_parallel_calls=AUTOTUNE)
    return dataset

def create_tfrecord(ds, n_shards):
    for i in range(n_shards):
        batch = map(lambda x: tf_serialize_example(x[0],x[1]), ds.shard(n_shards, i)
                    .apply(build_dataset_tfrecord)
                    .as_numpy_iterator())
        with tf.io.TFRecordWriter('output_file-part-{i}.tfrecord'.format(i=i), 'GZIP') as writer:
            for a in batch:
                writer.write(a)
```
`Dataset.shard(n, i)` keeps the elements whose position is congruent to
`i` mod `n`.  The proto wire encoding (`SerializeToString`) and the image
reading/decoding/resizing/encoding ops are the framework's, modelled as
abstract functions; the feature dictionary built by `tf_serialize_example`
is modelled concretely. -/

/-- A `tf.train.Feature`: one of the proto value-list kinds. -/
inductive Feature (Bytes : Type) where
  | bytesList (value : List Bytes)
  | floatList (value : List Rat)
  | int64List (value : List Int)

/-- The function `tf_serialize_example`: build the feature dict with the image bytes as
a single-element `BytesList` and the label list as an `Int64List`, wrap it
in a `tf.train.Example` and serialize with the framework's
`SerializeToString` (the abstract `serializeProto`). -/
def tf_serialize_example {Bytes Ser : Type}
    (serializeProto : List (String × Feature Bytes) → Ser)
    (image : Bytes) (label : List Int) : Ser :=
  serializeProto
    [("image", Feature.bytesList [image]),
      ("label", Feature.int64List label)]

/-- The per-element preprocessing of `build_dataset_tfrecord`:
`get_bytes_label_tfrecord` (read the file) then `process_image_tfrecord`
(decode, resize with nearest method, re-encode as JPEG). -/
def tfrecord_preprocess {Bytes Img : Type} (tfReadFile : String → Bytes)
    (tfDecodeJpeg3 : Bytes → Img) (tfResizeNearest : Img → Img)
    (tfEncodeJpeg : Img → Bytes) (x : String × List Int) :
    Bytes × List Int :=
  let raw := tfReadFile x.1
  let image1 := tfDecodeJpeg3 raw
  let image2 := tfResizeNearest image1
  let image3 := tfEncodeJpeg image2
  (image3, x.2)

/-- TensorFlow `ds.shard(n, i)`: the elements of the dataset whose index is congruent
to `i` modulo `n`. -/
def datasetShard {E : Type} (n i : Nat) (ds : List E) : List E :=
  (ds.enum.filter (fun p => p.1 % n == i)).map Prod.snd

/-- The contents of shard `i` written by `create_tfrecord`: the shard's
elements, preprocessed and serialized in order. -/
def shardContents {Bytes Img Ser : Type}
    (serializeProto : List (String × Feature Bytes) → Ser)
    (tfReadFile : String → Bytes) (tfDecodeJpeg3 : Bytes → Img)
    (tfResizeNearest : Img → Img) (tfEncodeJpeg : Img → Bytes)
    (ds : List (String × List Int)) (n i : Nat) : List Ser :=
  (datasetShard n i ds).map (fun x =>
    let y := tfrecord_preprocess tfReadFile tfDecodeJpeg3 tfResizeNearest
      tfEncodeJpeg x
    tf_serialize_example serializeProto y.1 y.2)

/-- The function `create_tfrecord`: for each `i` in `range(n_shards)`, write the file
`output_file-part-<i>.tfrecord` holding shard `i`'s serialized elements. -/
def create_tfrecord {Bytes Img Ser : Type}
    (serializeProto : List (String × Feature Bytes) → Ser)
    (tfReadFile : String → Bytes) (tfDecodeJpeg3 : Bytes → Img)
    (tfResizeNearest : Img → Img) (tfEncodeJpeg : Img → Bytes)
    (ds : List (String × List Int)) (n_shards : Nat) :
    List (String × List Ser) :=
  (List.range n_shards).map (fun i =>
    ("output_file-part-" ++ toString i ++ ".tfrecord",
      shardContents serializeProto tfReadFile tfDecodeJpeg3 tfResizeNearest
        tfEncodeJpeg ds n_shards i))

/-- The input positions that land in shard `i` of `n`. -/
def shardIndices (n i len : Nat) : List Nat :=
  (List.range len).filter (fun j => j % n == i)

theorem mem_shardIndices {n i len j : Nat} :
    j ∈ shardIndices n i len ↔ j < len ∧ j % n = i := by
  simp [shardIndices, List.mem_filter, List.mem_range]

/-- The elements of shard `i` are exactly the input elements at the
positions of `shardIndices`, in order. -/
theorem datasetShard_eq_map_indices {E : Type} [Inhabited E]
    (n i : Nat) (ds : List E) :
    datasetShard n i ds = (shardIndices n i ds.length).map
      (fun j => ds.getD j default) := by
  rw [datasetShard, shardIndices]
  induction ds using List.reverseRecOn with
  | nil => simp
  | append_singleton xs x ih =>
    rw [List.enum_append]
    simp only [List.length_append, List.length_singleton]
    rw [List.range_succ, List.filter_append, List.filter_append,
      List.map_append, List.map_append, ih]
    congr 1
    · apply List.map_congr_left
      intro j hj
      have hjlt : j < xs.length := List.mem_range.mp (List.mem_of_mem_filter hj)
      rw [List.getD_append _ _ _ _ hjlt]
    · simp only [List.enumFrom_singleton, List.filter_singleton]
      by_cases h : xs.length % n == i
      · simp only [h, if_pos]
        simp [List.getD_append_right, h]
      · simp [h]

theorem length_create_tfrecord {Bytes Img Ser : Type}
    (serializeProto : List (String × Feature Bytes) → Ser)
    (tfReadFile : String → Bytes) (tfDecodeJpeg3 : Bytes → Img)
    (tfResizeNearest : Img → Img) (tfEncodeJpeg : Img → Bytes)
    (ds : List (String × List Int)) (n_shards : Nat) :
    (create_tfrecord serializeProto tfReadFile tfDecodeJpeg3 tfResizeNearest
      tfEncodeJpeg ds n_shards).length = n_shards := by
  simp [create_tfrecord]

/-- C4: with `n_shards >= 1`, `create_tfrecord` writes exactly `n_shards`
sequential TFRecord files; the file at position `i` holds, in order, the
serializations (image bytes as a `BytesList` feature, label as an
`Int64List` feature, via `tf_serialize_example`) of exactly the input
elements at positions congruent to `i` mod `n_shards`; and every input
position belongs to exactly one shard, so the shards partition the input
dataset. -/
theorem create_tfrecord_partition {Bytes Img Ser : Type}
    (serializeProto : List (String × Feature Bytes) → Ser)
    (tfReadFile : String → Bytes) (tfDecodeJpeg3 : Bytes → Img)
    (tfResizeNearest : Img → Img) (tfEncodeJpeg : Img → Bytes)
    (ds : List (String × List Int)) (n_shards : Nat)
    (hn : 1 ≤ n_shards) :
    (create_tfrecord serializeProto tfReadFile tfDecodeJpeg3 tfResizeNearest
        tfEncodeJpeg ds n_shards).length = n_shards ∧
    (∀ i, i < n_shards →
      (create_tfrecord serializeProto tfReadFile tfDecodeJpeg3
          tfResizeNearest tfEncodeJpeg ds n_shards).get? i =
        some ("output_file-part-" ++ toString i ++ ".tfrecord",
          (shardIndices n_shards i ds.length).map (fun j =>
            let y := tfrecord_preprocess tfReadFile tfDecodeJpeg3
              tfResizeNearest tfEncodeJpeg (ds.getD j default)
            tf_serialize_example serializeProto y.1 y.2))) ∧
    (∀ j, j < ds.length →
      ∃! i, i < n_shards ∧ j ∈ shardIndices n_shards i ds.length) := by
  refine ⟨length_create_tfrecord _ _ _ _ _ _ _, ?_, ?_⟩
  · intro i hi
    rw [create_tfrecord, List.get?_eq_getElem?,
      List.getElem?_map, List.getElem?_range hi, Option.map_some']
    unfold shardContents
    rw [datasetShard_eq_map_indices, List.map_map]
    rfl
  · intro j hj
    refine ⟨j % n_shards, ⟨Nat.mod_lt j hn, ?_⟩, ?_⟩
    · exact mem_shardIndices.mpr ⟨hj, rfl⟩
    · intro i hi
      have := mem_shardIndices.mp hi.2
      exact this.2.symm

/-- Witness for C4 at a concrete dataset and shard count. -/
theorem create_tfrecord_partition_witness :
    1 ≤ 2 ∧
    ((create_tfrecord (fun fs => fs) (fun s => s) (fun b => b) (fun v => v)
        (fun v => v) [("f0", [1]), ("f1", [0]), ("f2", [1])] 2).length = 2 ∧
      (∀ i, i < 2 →
        (create_tfrecord (fun fs => fs) (fun s => s) (fun b => b)
            (fun v => v) (fun v => v)
            [("f0", [1]), ("f1", [0]), ("f2", [1])] 2).get? i =
          some ("output_file-part-" ++ toString i ++ ".tfrecord",
            (shardIndices 2 i 3).map (fun j =>
              let y := tfrecord_preprocess (fun s => s) (fun b => b)
                (fun v => v) (fun v => v)
                (([("f0", [1]), ("f1", [0]), ("f2", [1])] :
                  List (String × List Int)).getD j default)
              tf_serialize_example (fun fs => fs) y.1 y.2))) ∧
      (∀ j, j < ([("f0", [1]), ("f1", [0]), ("f2", [1])] :
          List (String × List Int)).length →
        ∃! i, i < 2 ∧ j ∈ shardIndices 2 i
          ([("f0", [1]), ("f1", [0]), ("f2", [1])] :
            List (String × List Int)).length)) :=
  ⟨by decide, create_tfrecord_partition (fun fs => fs) (fun s => s)
    (fun b => b) (fun v => v) (fun v => v)
    [("f0", [1]), ("f1", [0]), ("f2", [1])] 2 (by decide)⟩

/-! ## The two versions of `build_dataset_test` (`4_save_and_load.ipynb`)

First version (map before batch):
```python
def build_dataset_test(dataset, batch_size=BATCH_SIZE):
    dataset = dataset.interleave(get_tfrecord, num_parallel_calls=AUTOTUNE)
    dataset = dataset.map(_parse_function, num_parallel_calls=AUTOTUNE)
    dataset = dataset.map(process_image_tfrecord, num_parallel_calls=AUTOTUNE)
    dataset = dataset.repeat()
    dataset = dataset.batch(batch_size=batch_size)
    dataset = dataset.prefetch(buffer_size=AUTOTUNE)
    return dataset
```
with `_parse_function` = `tf.io.parse_single_example` and
```python
def process_image_tfrecord(record):
    image = tf.io.decode_jpeg(record['image'], channels=3)
    image = tf.image.convert_image_dtype(image, dtype=tf.float32)
    label = record['label']
    return image, label
```

Second version (batch before map, "Batch before we Map!"):
```python
def build_dataset_test(dataset, batch_size=BATCH_SIZE):
    dataset = dataset.interleave(get_tfrecord, num_parallel_calls=AUTOTUNE)
    dataset = dataset.batch(batch_size=batch_size)
    dataset = dataset.map(_parse_function, num_parallel_calls=AUTOTUNE)
    dataset = dataset.map(process_image_tfrecord, num_parallel_calls=AUTOTUNE)
    dataset = dataset.repeat()
    dataset = dataset.prefetch(buffer_size=AUTOTUNE)
    return dataset
```
with `_parse_function` redefined over `tf.io.parse_example` (elementwise
parsing of a batch) and
```python
def process_image_tfrecord(record):
    image = tf.map_fn(tf.io.decode_jpeg, record['image'], dtype=tf.uint8)
    image = tf.map_fn(lambda image:
                      tf.image.convert_image_dtype(image, dtype=tf.float32), image, dtype=tf.float32)
    label = record['label']
    return image, label
```

Both versions apply the identical `interleave(get_tfrecord, ...)` stage to
the same `filenames_dataset`, so both pipelines are modelled from the
element stream `xs` that stage produces.  `tf.io.parse_single_example`
(and its batched form `tf.io.parse_example`, which parses elementwise) and
`tf.io.decode_jpeg` — called with `channels=3` in the first version and
with the default `channels=0` under `tf.map_fn` in the second — are
framework primitives, modelled as abstract functions; `repeat` turns the
finite stream into an infinite one, modelled as a `Nat`-indexed stream of
optional elements; `prefetch` does not change the element sequence.
A batch of (image, label) pairs is modelled as the list of its pairs. -/

/-- A parsed `tf.train.Example` under the notebook's `feature_description`:
an `image` bytes feature and an int64-list `label` feature. -/
structure ParsedExample (B : Type) where
  image : B
  label : List Int
deriving DecidableEq

/-- The function `process_image_tfrecord` of the first version: decode the JPEG with
`channels=3`, convert to float dtype, keep the label. -/
def process_image_tfrecord_v1 {B I F : Type} (tfDecodeJpeg : Nat → B → I)
    (tfConvertFloat : I → F) (record : ParsedExample B) : F × List Int :=
  let image1 := tfDecodeJpeg 3 record.image
  let image2 := tfConvertFloat image1
  (image2, record.label)

/-- The function `_parse_function` of the second version: `tf.io.parse_example` on a
batch parses each serialized example of the batch. -/
def parse_function_v2 {R B : Type} (parseExample : R → ParsedExample B)
    (batch : List R) : List (ParsedExample B) :=
  batch.map parseExample

/-- The function `process_image_tfrecord` of the second version: `tf.map_fn` of
`tf.io.decode_jpeg` (default `channels=0`) over the batched images, then
`tf.map_fn` of the dtype conversion, paired with the batched labels. -/
def process_image_tfrecord_v2 {B I F : Type} (tfDecodeJpeg : Nat → B → I)
    (tfConvertFloat : I → F) (records : List (ParsedExample B)) :
    List (F × List Int) :=
  let images1 := (records.map (fun r => r.image)).map
    (fun bytes => tfDecodeJpeg 0 bytes)
  let images2 := images1.map tfConvertFloat
  let labels := records.map (fun r => r.label)
  images2.zip labels

/-- The element at position `n` of a finite dataset after `repeat`: the
infinitely repeated list (`none` for the empty dataset, whose repetition
is empty). -/
def repeatNth {E : Type} (xs : List E) (n : Nat) : Option E :=
  xs.get? (n % xs.length)

/-- The next `b` consecutive elements of a stream starting at `start`; `none` when
the stream has ended. -/
def streamTake {E : Type} (s : Nat → Option E) : Nat → Nat → Option (List E)
  | _, 0 => some []
  | start, b + 1 =>
    match s start with
    | none => none
    | some a => (streamTake s (start + 1) b).map (fun l => a :: l)

/-- The `n`-th batch of size `b` of a (repeated) stream. -/
def batchNth {E : Type} (s : Nat → Option E) (b n : Nat) : Option (List E) :=
  streamTake s (n * b) b

/-- TensorFlow `Dataset.batch` on a finite dataset (fuel-driven recursion; the fuel
`xs.length` suffices for any positive batch size): consecutive chunks of
`b` elements, the last one possibly partial. -/
def batchedGo {E : Type} (b : Nat) : Nat → List E → List (List E)
  | _, [] => []
  | 0, _ :: _ => []
  | fuel + 1, x :: xs => ((x :: xs).take b) :: batchedGo b fuel ((x :: xs).drop b)

/-- TensorFlow `Dataset.batch(b)` on a finite dataset. -/
def batched {E : Type} (b : Nat) (xs : List E) : List (List E) :=
  batchedGo b xs.length xs

/-- The first `build_dataset_test` applied to the interleave output `xs`:
parse and decode per element, `repeat`, then `batch`; the value is the
`n`-th batch the pipeline yields (`prefetch` changes nothing). -/
def build_dataset_test_v1 {R B I F : Type}
    (parseExample : R → ParsedExample B) (tfDecodeJpeg : Nat → B → I)
    (tfConvertFloat : I → F) (xs : List R) (batch_size n : Nat) :
    Option (List (F × List Int)) :=
  let elems := (xs.map parseExample).map
    (process_image_tfrecord_v1 tfDecodeJpeg tfConvertFloat)
  batchNth (repeatNth elems) batch_size n

/-- The second `build_dataset_test` applied to the interleave output `xs`:
`batch`, then parse and decode with vectorized maps, then `repeat`; the
value is the `n`-th batch the pipeline yields. -/
def build_dataset_test_v2 {R B I F : Type}
    (parseExample : R → ParsedExample B) (tfDecodeJpeg : Nat → B → I)
    (tfConvertFloat : I → F) (xs : List R) (batch_size n : Nat) :
    Option (List (F × List Int)) :=
  let batches := (batched batch_size xs).map (fun rs =>
    process_image_tfrecord_v2 tfDecodeJpeg tfConvertFloat
      (parse_function_v2 parseExample rs))
  repeatNth batches n

/-- Counterexample to C2 as stated: on a one-record stream with batch size
2, the first version yields `[r, r]` as its first batch (batching the
repeated stream) while the second yields the partial batch `[r]` (repeating
the batched stream), so the two pipelines do not agree for every dataset
and batch size. -/
theorem build_dataset_test_not_equal :
    build_dataset_test_v1 (fun r : Nat => ParsedExample.mk r [(5 : Int)])
        (fun _ bytes => bytes) (fun i => i) [5] 2 0 ≠
      build_dataset_test_v2 (fun r : Nat => ParsedExample.mk r [(5 : Int)])
        (fun _ bytes => bytes) (fun i => i) [5] 2 0 := by
  decide

theorem streamTake_succ_of_some {E : Type} (s : Nat → Option E)
    (start b : Nat) (a : E) (h : s start = some a) :
    streamTake s start (b + 1) =
      (streamTake s (start + 1) b).map (fun l => a :: l) := by
  rw [streamTake, h]

/-- Reading a batch out of a repeated list that does not wrap around mid
batch yields the corresponding contiguous slice of the list. -/
theorem streamTake_repeatNth {E : Type} (ys : List E) :
    ∀ (b start : Nat), start % ys.length + b ≤ ys.length →
      streamTake (repeatNth ys) start b =
        some ((ys.drop (start % ys.length)).take b) := by
  intro b
  induction b with
  | zero => intro start _; simp [streamTake]
  | succ b ih =>
    intro start h
    have hlt : start % ys.length < ys.length := by omega
    have hget : repeatNth ys start = some (ys.get ⟨start % ys.length, hlt⟩) := by
      rw [repeatNth]
      exact List.get?_eq_get hlt
    have hdropcons : ys.drop (start % ys.length) =
        ys.get ⟨start % ys.length, hlt⟩ :: ys.drop (start % ys.length + 1) := by
      rw [List.drop_eq_getElem_cons hlt]
      rfl
    rw [streamTake_succ_of_some _ _ _ _ hget]
    rcases Nat.eq_zero_or_pos b with hb0 | hbpos
    · subst hb0
      have h0 : streamTake (repeatNth ys) (start + 1) 0 = some [] := rfl
      rw [h0, Option.map_some', hdropcons, List.take_succ_cons, List.take_zero]
    · have hL2 : start % ys.length + 1 < ys.length := by omega
      have hmod : (start + 1) % ys.length = start % ys.length + 1 := by
        rw [Nat.add_mod, Nat.mod_eq_of_lt (show 1 < ys.length by omega),
          Nat.mod_eq_of_lt (by omega)]
      have hpre : (start + 1) % ys.length + b ≤ ys.length := by
        rw [hmod]; omega
      rw [ih (start + 1) hpre, hmod, Option.map_some', hdropcons,
        List.take_succ_cons]

/-- TensorFlow `Dataset.batch(b)` on a dataset of `m * b` elements yields the `m`
contiguous chunks of `b` elements. -/
theorem batchedGo_spec {E : Type} (b : Nat) :
    ∀ (m fuel : Nat) (xs : List E), xs.length = m * b → 0 < b →
      xs.length ≤ fuel →
      batchedGo b fuel xs =
        (List.range m).map (fun k => (xs.drop (k * b)).take b) := by
  intro m
  induction m with
  | zero =>
    intro fuel xs hlen _ _
    have hnil : xs = [] := List.length_eq_zero.mp (by simpa using hlen)
    subst hnil
    cases fuel <;> simp [batchedGo]
  | succ m ih =>
    intro fuel xs hlen hb hfuel
    have hmul : (m + 1) * b = m * b + b := Nat.succ_mul m b
    have hpos : 0 < xs.length := by
      rw [hlen]
      exact Nat.mul_pos (Nat.succ_pos m) hb
    obtain ⟨x, xs1, rfl⟩ : ∃ y ys, xs = y :: ys := by
      cases xs with
      | nil => simp at hpos
      | cons y ys => exact ⟨y, ys, rfl⟩
    obtain ⟨f, rfl⟩ : ∃ f, fuel = f + 1 := by
      cases fuel with
      | zero => omega
      | succ f => exact ⟨f, rfl⟩
    rw [batchedGo]
    have hdlen : ((x :: xs1).drop b).length = m * b := by
      rw [List.length_drop]
      omega
    have hflen : ((x :: xs1).drop b).length ≤ f := by
      rw [hdlen]
      omega
    rw [ih f _ hdlen hb hflen, List.range_succ_eq_map, List.map_cons,
      List.map_map]
    congr 1
    · simp
    · apply List.map_congr_left
      intro k _
      simp only [Function.comp]
      rw [List.drop_drop]
      have hh : b + k * b = Nat.succ k * b := by
        rw [Nat.succ_mul, Nat.add_comm]
      rw [hh]

/-- The vectorized parse-and-decode of the second version processes a
batch elementwise; when decoding with `channels=3` and with the default
channel count agree on the stored images, it coincides with mapping the
first version's per-element function. -/
theorem process_v2_eq_map {R B I F : Type}
    (parseExample : R → ParsedExample B) (tfDecodeJpeg : Nat → B → I)
    (tfConvertFloat : I → F)
    (hdec : ∀ bytes, tfDecodeJpeg 3 bytes = tfDecodeJpeg 0 bytes)
    (rs : List R) :
    process_image_tfrecord_v2 tfDecodeJpeg tfConvertFloat
        (parse_function_v2 parseExample rs) =
      rs.map (fun r => process_image_tfrecord_v1 tfDecodeJpeg tfConvertFloat
        (parseExample r)) := by
  unfold process_image_tfrecord_v2 parse_function_v2
  simp only [List.map_map]
  rw [List.zip_map']
  apply List.map_congr_left
  intro r _
  simp [process_image_tfrecord_v1, Function.comp, hdec]

/-- C2 (amended): the two versions of `build_dataset_test` yield the same
sequence of batches provided the batch size divides the number of elements
the interleave stage produces and `decode_jpeg` with `channels=3` agrees
with default-channel decoding on the stored images (as it does for the
3-channel JPEGs the notebook writes into its TFRecords); without the
divisibility condition they differ (`build_dataset_test_not_equal`). -/
theorem build_dataset_test_equiv {R B I F : Type}
    (parseExample : R → ParsedExample B) (tfDecodeJpeg : Nat → B → I)
    (tfConvertFloat : I → F) (xs : List R) (batch_size : Nat)
    (hb : 0 < batch_size) (hdvd : batch_size ∣ xs.length)
    (hdec : ∀ bytes, tfDecodeJpeg 3 bytes = tfDecodeJpeg 0 bytes) :
    ∀ n, build_dataset_test_v1 parseExample tfDecodeJpeg tfConvertFloat
        xs batch_size n =
      build_dataset_test_v2 parseExample tfDecodeJpeg tfConvertFloat
        xs batch_size n := by
  intro n
  obtain ⟨m, hm⟩ := hdvd
  rcases Nat.eq_zero_or_pos m with hm0 | hmpos
  · have hnil : xs = [] := by
      apply List.length_eq_zero.mp
      rw [hm, hm0, Nat.mul_zero]
    subst hnil
    obtain ⟨b0, rfl⟩ : ∃ b0, batch_size = b0 + 1 := ⟨batch_size - 1, by omega⟩
    simp [build_dataset_test_v1, build_dataset_test_v2, batchNth, batched,
      batchedGo, repeatNth, streamTake]
  · have hlen1 : ((xs.map parseExample).map
        (process_image_tfrecord_v1 tfDecodeJpeg tfConvertFloat)).length =
        batch_size * m := by
      simp [hm]
    have hmodL : (n * batch_size) % (batch_size * m) = (n % m) * batch_size := by
      rw [Nat.mul_comm batch_size m]
      exact Nat.mul_mod_mul_right batch_size n m
    have hnm : n % m < m := Nat.mod_lt n hmpos
    have hchunk : (n % m) * batch_size + batch_size ≤ batch_size * m := by
      have h1 : (n % m) * batch_size + batch_size = (n % m + 1) * batch_size :=
        (Nat.succ_mul _ _).symm
      rw [h1, Nat.mul_comm batch_size m]
      exact Nat.mul_le_mul_right batch_size (by omega)
    have hpre : (n * batch_size) %
        ((xs.map parseExample).map
          (process_image_tfrecord_v1 tfDecodeJpeg tfConvertFloat)).length +
        batch_size ≤
        ((xs.map parseExample).map
          (process_image_tfrecord_v1 tfDecodeJpeg tfConvertFloat)).length := by
      rw [hlen1, hmodL]
      exact hchunk
    have hv1 : build_dataset_test_v1 parseExample tfDecodeJpeg tfConvertFloat
        xs batch_size n =
        some ((((xs.map parseExample).map
            (process_image_tfrecord_v1 tfDecodeJpeg tfConvertFloat)).drop
          ((n % m) * batch_size)).take batch_size) := by
      unfold build_dataset_test_v1 batchNth
      rw [streamTake_repeatNth _ batch_size (n * batch_size) hpre,
        hlen1, hmodL]
    have hbatched : batched batch_size xs =
        (List.range m).map (fun k => (xs.drop (k * batch_size)).take batch_size) := by
      rw [batched]
      exact batchedGo_spec batch_size m xs.length xs
        (by rw [hm, Nat.mul_comm]) hb le_rfl
    have hv2 : build_dataset_test_v2 parseExample tfDecodeJpeg tfConvertFloat
        xs batch_size n =
        some (process_image_tfrecord_v2 tfDecodeJpeg tfConvertFloat
          (parse_function_v2 parseExample
            ((xs.drop ((n % m) * batch_size)).take batch_size))) := by
      unfold build_dataset_test_v2
      rw [hbatched, List.map_map, repeatNth, List.length_map,
        List.length_range, List.get?_eq_getElem?, List.getElem?_map,
        List.getElem?_range hnm, Option.map_some']
      rfl
    rw [hv1, hv2, process_v2_eq_map parseExample tfDecodeJpeg tfConvertFloat hdec]
    rw [← List.map_drop, ← List.map_drop, ← List.map_take, ← List.map_take,
      List.map_map]
    rfl

/-- Witness for the amended C2 at a concrete record stream, batch size and
batch index, with all hypotheses discharged. -/
theorem build_dataset_test_equiv_witness :
    0 < 2 ∧ (2 : Nat) ∣ ([1, 2, 3, 4] : List Nat).length ∧
    (∀ bytes : Nat, (fun (_ bytes : Nat) => bytes) 3 bytes =
      (fun (_ bytes : Nat) => bytes) 0 bytes) ∧
    build_dataset_test_v1 (fun r : Nat => ParsedExample.mk r [(r : Int)])
        (fun _ bytes => bytes) (fun i : Nat => i) [1, 2, 3, 4] 2 3 =
      build_dataset_test_v2 (fun r : Nat => ParsedExample.mk r [(r : Int)])
        (fun _ bytes => bytes) (fun i : Nat => i) [1, 2, 3, 4] 2 3 :=
  ⟨by decide, by decide, fun bytes => rfl,
    build_dataset_test_equiv (fun r : Nat => ParsedExample.mk r [(r : Int)])
      (fun _ bytes => bytes) (fun i : Nat => i) [1, 2, 3, 4] 2
      (by decide) (by decide) (fun bytes => rfl) 3⟩

end TFGuides
